import Mathlib

/-!
Verification of the CPU-capability tag system of `src/Corrade/Cpu.h`
(Corrade's `Corrade::Cpu` namespace) against its specification.

The C++ code stores capability sets as `unsigned int` bitmasks.  We embed
those masks as `Nat` together with explicit bounds (`< 2^32`) where the
32-bit width matters.  All constants and functions below are translated
directly from `Cpu.h`; spec-side definitions (used only to state claims)
are clearly marked as such in their doc comments.
-/

namespace Corrade
namespace Cpu

/-- `Implementation::ExtraTagBitOffset` (Cpu.h line 399): extra tags start at
bit 16. -/
def extraTagBitOffset : Nat := 16

/-- `Implementation::BaseTagMask = (1 << ExtraTagBitOffset) - 1` (Cpu.h
line 934). -/
def baseTagMask : Nat := (1 <<< extraTagBitOffset) - 1

/-- `Implementation::ExtraTagMask = 0xffffffffu & ~BaseTagMask` (Cpu.h
line 935).  On a 32-bit unsigned value, masking with the complement of
`BaseTagMask` is the same as xor-ing the all-ones word with `BaseTagMask`
since `BaseTagMask`'s bits are a subset of the 32-bit word. -/
def extraTagMask : Nat := 0xffffffff ^^^ baseTagMask

/-- `Implementation::ExtraTagCount` on x86 (Cpu.h line 937). -/
def extraTagCountX86 : Nat := 4

/-- `Implementation::ExtraTagCount` on non-x86 platforms (Cpu.h line 939). -/
def extraTagCountOther : Nat := 0

/-- `TypeTraits<ScalarT>::Index = 0` (Cpu.h line 418). -/
def scalar : Nat := 0

/-- `TypeTraits<Sse2T>::Index = 1 << 0` (Cpu.h line 595). -/
def sse2 : Nat := 1 <<< 0

/-- `TypeTraits<Sse3T>::Index = 1 << 1` (Cpu.h line 599). -/
def sse3 : Nat := 1 <<< 1

/-- `TypeTraits<Ssse3T>::Index = 1 << 2` (Cpu.h line 603). -/
def ssse3 : Nat := 1 <<< 2

/-- `TypeTraits<Sse41T>::Index = 1 << 3` (Cpu.h line 607). -/
def sse41 : Nat := 1 <<< 3

/-- `TypeTraits<Sse42T>::Index = 1 << 4` (Cpu.h line 611). -/
def sse42 : Nat := 1 <<< 4

/-- `TypeTraits<AvxT>::Index = 1 << 5` (Cpu.h line 615). -/
def avx : Nat := 1 <<< 5

/-- `TypeTraits<Avx2T>::Index = 1 << 6` (Cpu.h line 619). -/
def avx2 : Nat := 1 <<< 6

/-- `TypeTraits<Avx512fT>::Index = 1 << 7` (Cpu.h line 623). -/
def avx512f : Nat := 1 <<< 7

/-- `TypeTraits<PopcntT>::Index = 1 << (0 + ExtraTagBitOffset)` (Cpu.h
line 629). -/
def popcnt : Nat := 1 <<< (0 + extraTagBitOffset)

/-- `TypeTraits<LzcntT>::Index = 1 << (1 + ExtraTagBitOffset)` (Cpu.h
line 633). -/
def lzcnt : Nat := 1 <<< (1 + extraTagBitOffset)

/-- `TypeTraits<AvxF16cT>::Index = 1 << (2 + ExtraTagBitOffset)` (Cpu.h
line 637). -/
def avxF16c : Nat := 1 <<< (2 + extraTagBitOffset)

/-- `TypeTraits<AvxFmaT>::Index = 1 << (3 + ExtraTagBitOffset)` (Cpu.h
line 641). -/
def avxFma : Nat := 1 <<< (3 + extraTagBitOffset)

/-- `TypeTraits<NeonT>::Index = 1 << 0` on ARM (Cpu.h line 692). -/
def neon : Nat := 1 <<< 0

/-- `TypeTraits<NeonFmaT>::Index = 1 << 1` on ARM (Cpu.h line 696). -/
def neonFma : Nat := 1 <<< 1

/-- `TypeTraits<NeonFp16T>::Index = 1 << 2` on ARM (Cpu.h line 700). -/
def neonFp16 : Nat := 1 <<< 2

/-- `TypeTraits<Simd128T>::Index = 1 << 0` on WebAssembly (Cpu.h
line 723). -/
def simd128 : Nat := 1 <<< 0

/-! ## The `Features` class (Cpu.h lines 1255-1377)

`Features` wraps a single `unsigned int _data`.  Each member operator is
embedded as a function on the wrapped mask. -/

/-- `Features::operator>=` (Cpu.h line 1296): whether `other` is a subset of
this, computed as `(_data & other._data) == other._data`. -/
@[reducible] def featuresGe (a other : Nat) : Prop := a &&& other = other

/-- `Features::operator<=` (Cpu.h line 1305): whether `other` is a superset
of this, computed as `(_data & other._data) == _data`. -/
@[reducible] def featuresLe (a other : Nat) : Prop := a &&& other = a

/-- `Features::operator|` (Cpu.h line 1310). -/
def featuresOr (a other : Nat) : Nat := a ||| other

/-- `Features::operator&` (Cpu.h line 1321). -/
def featuresAnd (a other : Nat) : Nat := a &&& other

/-- `Features::operator^` (Cpu.h line 1332). -/
def featuresXor (a other : Nat) : Nat := a ^^^ other

/-- `Features::operator~` (Cpu.h line 1343): complement of the 32-bit
`_data`.  For `_data < 2^32` the C++ `~` flips exactly the 32 word bits,
i.e. it xors with the all-ones 32-bit word. -/
def featuresCompl (a : Nat) : Nat := 0xffffffff ^^^ a

/-- `Features::operator==` (Cpu.h line 1282). -/
@[reducible] def featuresEq (a other : Nat) : Prop := a = other

/-! ## Tag conversion predicates (Cpu.h lines 949-975) -/

/-- `Implementation::IsTagConversionAllowed<value, otherValue>::Value`
(Cpu.h lines 949-961): governs the converting constructor
`Tags<value>::Tags(Tags<otherValue>)`, i.e. conversion from a source
combination `otherValue` to a target combination `value`.  The C++
`!(x & (x - 1))` test on unsigned arithmetic maps to the same test on
`Nat` because for `x = 0` truncated subtraction also yields `0 &&& 0 = 0`. -/
def isTagConversionAllowed (value otherValue : Nat) : Bool :=
  ((value &&& baseTagMask) &&& ((value &&& baseTagMask) - 1) == 0) &&
  ((otherValue &&& baseTagMask) &&& ((otherValue &&& baseTagMask) - 1) == 0) &&
  (decide ((otherValue &&& baseTagMask) ≥ (value &&& baseTagMask))) &&
  (((otherValue &&& value) &&& extraTagMask) == (value &&& extraTagMask))

/-- `Implementation::IsSingleTagConversionAllowed<value, otherIndex>::Value`
(Cpu.h lines 962-975): governs the converting constructor
`Tags<value>::Tags(T)` from a single tag whose `TypeTraits` index is
`otherIndex`. -/
def isSingleTagConversionAllowed (value otherIndex : Nat) : Bool :=
  ((value &&& baseTagMask) &&& ((value &&& baseTagMask) - 1) == 0) &&
  (decide ((otherIndex &&& baseTagMask) ≥ (value &&& baseTagMask))) &&
  (((otherIndex &&& value) &&& extraTagMask) == (value &&& extraTagMask))

/-- `Implementation::Tags<value>::operator|(Tags<otherValue>)` (Cpu.h
lines 995-997): plain bitwise or of the two compile-time values, with no
check of its own. -/
def tagsOr (value otherValue : Nat) : Nat := value ||| otherValue

/-! ## Priority computation (Cpu.h lines 1027-1079) -/

/-- `Implementation::BitIndex<A>` (Cpu.h lines 1031-1036) evaluated with an
explicit fuel so that the recursion is structural: `BitIndex<A>::Value =
1 + BitIndex<(A >> 1)>::Value` and `BitIndex<0>::Value = 0`.  The template
recursion halves `A` each step, so any fuel of at least `A` evaluates it
fully; `bitIndex` below passes `A` itself as fuel.  `Nat.rec` is used
directly (rather than the equation compiler) to keep kernel reduction
cheap. -/
def bitIndexFuel (fuel : Nat) : Nat → Nat :=
  Nat.rec (motive := fun _ => Nat → Nat) (fun _ => 0)
    (fun _ ih a => if a = 0 then 0 else 1 + ih (a / 2)) fuel

/-- `Implementation::BitIndex<A>::Value` (Cpu.h lines 1031-1036): base-2 log
"plus one", returning 0 for `A == 0`. -/
def bitIndex (a : Nat) : Nat := bitIndexFuel a a

/-- `Implementation::BitCount<A>::Value` (Cpu.h lines 1041-1063): the
constexpr 16-bit SWAR popcount, translated literally.  `A >> k` on the
promoted unsigned value is `Nat` division by `2^k`, written `>>> k`. -/
def bitCount (a : Nat) : Nat :=
  let bits1 := 0x5555
  let bits2 := 0x3333
  let bits4 := 0x0f0f
  let bits8 := 0x00ff
  let b0 := (a >>> 0) &&& bits1
  let b1 := (a >>> 1) &&& bits1
  let c := b0 + b1
  let d0 := (c >>> 0) &&& bits2
  let d2 := (c >>> 2) &&& bits2
  let e := d0 + d2
  let f0 := (e >>> 0) &&& bits4
  let f4 := (e >>> 4) &&& bits4
  let g := f0 + f4
  let h0 := (g >>> 0) &&& bits8
  let h8 := (g >>> 8) &&& bits8
  h0 + h8

/-- The value of the `Priority<...>` template argument of
`Implementation::priority(Tags<value>)` (Cpu.h line 1074):
`BitIndex<value & BaseTagMask>::Value * (ExtraTagCount + 1) +
BitCount<(value & ExtraTagMask) >> ExtraTagBitOffset>::Value`, parametrised
by the platform's `ExtraTagCount` (`etc`). -/
def priorityVal (etc value : Nat) : Nat :=
  bitIndex (value &&& baseTagMask) * (etc + 1) +
    bitCount ((value &&& extraTagMask) >>> extraTagBitOffset)

/-- `Implementation::priority(Tags<value>)` together with its two
`static_assert`s (Cpu.h lines 1074-1079): instantiating the priority of a
tag combination fails the build unless at most one base bit is set
(`!((value & BaseTagMask) & ((value & BaseTagMask) - 1))`) and the extra
bits lie in the declared range
(`((value & ExtraTagMask) >> ExtraTagBitOffset) < (1 << ExtraTagCount)`).
A failed `static_assert` is modelled as `none`. -/
def priorityChecked (etc value : Nat) : Option Nat :=
  if (value &&& baseTagMask) &&& ((value &&& baseTagMask) - 1) = 0 ∧
      (value &&& extraTagMask) >>> extraTagBitOffset < 1 <<< etc
  then some (priorityVal etc value) else none

/-! ## Runtime dispatch on base tags (Cpu.h lines 1689-1709)

`CORRADE_CPU_DISPATCHER_BASE` on x86 generates a function that tests
`features & Corrade::Cpu::<Tag>` (a nonzero-intersection test, via
`Features::operator&` and the boolean conversion) for each base tag from
`Avx512f` down to `Sse2` and calls the overload of the first hit, falling
back to the `Scalar` overload.  We model the generated dispatcher by the
tag it selects. -/

/-- The x86 `CORRADE_CPU_DISPATCHER_BASE` selection (Cpu.h lines 1690-1709):
returns the tag index whose overload the generated function calls for the
observed `features` mask. -/
def dispatcherBase (features : Nat) : Nat :=
  if features &&& avx512f ≠ 0 then avx512f
  else if features &&& avx2 ≠ 0 then avx2
  else if features &&& avx ≠ 0 then avx
  else if features &&& sse42 ≠ 0 then sse42
  else if features &&& sse41 ≠ 0 then sse41
  else if features &&& ssse3 ≠ 0 then ssse3
  else if features &&& sse3 ≠ 0 then sse3
  else if features &&& sse2 ≠ 0 then sse2
  else scalar

/-- The base-tag candidates scanned by the x86 dispatchers, from highest to
lowest rank (Cpu.h lines 1692-1708 and 1738-1754), plus the `Scalar`
fallback. -/
def baseVariants : List Nat :=
  [scalar, sse2, sse3, ssse3, sse41, sse42, avx, avx2, avx512f]

/-! ## Runtime dispatch with extra tags (Cpu.h lines 1736-1802)

`CORRADE_CPU_DISPATCHER` first accumulates (`_CORRADE_CPU_DISPATCHERn`,
lines 1788-1802) the subset of the listed extra tags present in `features`
into a `Tags<value>` (starting from `Tags<0>`), then
(`_CORRADE_CPU_DISPATCHER_IMPLEMENTATION`, lines 1737-1754) scans the base
tags from `Avx512f` down, calling
`function(CORRADE_CPU_SELECT(base | extra))` for the first base tag with
`features >= (base | extra)`.  The call then resolves by C++ overload
resolution among the overloads declared with `CORRADE_CPU_DECLARE(tag)`:
an overload for declared combination `v` is viable iff
`Tags<v>` is constructible from the selected `Tags<c>`
(`IsTagConversionAllowed<v, c>`), and among viable overloads the one whose
`Implementation::priority` type is most derived — i.e. has the largest
priority value — wins. -/

/-- Extra-tag accumulation of `_CORRADE_CPU_DISPATCHERn` (Cpu.h
lines 1788-1802): fold over the listed extra tags, or-ing in each tag
contained in `features`. -/
def dispatcherExtras (extras : List Nat) (features : Nat) : Nat :=
  extras.foldl (fun acc e => if features &&& e ≠ 0 then acc ||| e else acc) 0

/-- C++ overload resolution at a `function(CORRADE_CPU_SELECT(c))` call
site: among the declared variants (`registry`), those constructible from
`Tags<c>` are viable, and the one with the largest
`Implementation::priority` value is chosen (the `Priority<i>` inheritance
chain makes larger values more derived).  `none` means no viable overload
(a compile error in C++). -/
def selectOverload (registry : List Nat) (c : Nat) : Option Nat :=
  registry.foldl
    (fun best v =>
      if isTagConversionAllowed v c then
        match best with
        | none => some v
        | some b =>
          if priorityVal extraTagCountX86 b < priorityVal extraTagCountX86 v
          then some v else some b
      else best)
    none

/-- `_CORRADE_CPU_DISPATCHER_IMPLEMENTATION` on x86 (Cpu.h
lines 1737-1754) with the accumulated `extra` tags: scan base tags from
highest to lowest, and at the first base tag with
`features >= (base | extra)` resolve the overload for `base | extra`. -/
def dispatcherImplementation (registry : List Nat) (features extra : Nat) :
    Option Nat :=
  if features &&& (avx512f ||| extra) = avx512f ||| extra then
    selectOverload registry (avx512f ||| extra)
  else if features &&& (avx2 ||| extra) = avx2 ||| extra then
    selectOverload registry (avx2 ||| extra)
  else if features &&& (avx ||| extra) = avx ||| extra then
    selectOverload registry (avx ||| extra)
  else if features &&& (sse42 ||| extra) = sse42 ||| extra then
    selectOverload registry (sse42 ||| extra)
  else if features &&& (sse41 ||| extra) = sse41 ||| extra then
    selectOverload registry (sse41 ||| extra)
  else if features &&& (ssse3 ||| extra) = ssse3 ||| extra then
    selectOverload registry (ssse3 ||| extra)
  else if features &&& (sse3 ||| extra) = sse3 ||| extra then
    selectOverload registry (sse3 ||| extra)
  else if features &&& (sse2 ||| extra) = sse2 ||| extra then
    selectOverload registry (sse2 ||| extra)
  else selectOverload registry (scalar ||| extra)

/-- The full x86 `CORRADE_CPU_DISPATCHER(type, function, extras...)`
pipeline (Cpu.h lines 1788-1802): accumulate the present extra tags, then
run the implementation scan. -/
def dispatcher (registry extras : List Nat) (features : Nat) : Option Nat :=
  dispatcherImplementation registry features (dispatcherExtras extras features)

/-! ## Compile-time and runtime feature detection (Cpu.h lines 1544-1633) -/

/-- `compiledFeatures()` on x86 (Cpu.h lines 1546-1579): the or of the
`TypeTraits` index of every instruction set enabled by a
`CORRADE_TARGET_*` preprocessor flag, in source order. -/
def compiledFeaturesX86 (tSse2 tSse3 tSsse3 tSse41 tSse42 tPopcnt tLzcnt
    tAvx tAvxFma tAvxF16c tAvx2 : Bool) : Nat :=
  (if tSse2 then sse2 else 0) |||
  (if tSse3 then sse3 else 0) |||
  (if tSsse3 then ssse3 else 0) |||
  (if tSse41 then sse41 else 0) |||
  (if tSse42 then sse42 else 0) |||
  (if tPopcnt then popcnt else 0) |||
  (if tLzcnt then lzcnt else 0) |||
  (if tAvx then avx else 0) |||
  (if tAvxFma then avxFma else 0) |||
  (if tAvxF16c then avxF16c else 0) |||
  (if tAvx2 then avx2 else 0)

/-- `compiledFeatures()` on ARM (Cpu.h lines 1581-1590). -/
def compiledFeaturesArm (tNeon tNeonFma tNeonFp16 : Bool) : Nat :=
  (if tNeon then neon else 0) |||
  (if tNeonFma then neonFma else 0) |||
  (if tNeonFp16 then neonFp16 else 0)

/-- `compiledFeatures()` on WebAssembly (Cpu.h lines 1592-1595). -/
def compiledFeaturesWasm (tSimd128 : Bool) : Nat :=
  if tSimd128 then simd128 else 0

/-- `compiledFeatures()` on any other platform (Cpu.h line 1597): the bare
`0`, i.e. `Scalar`. -/
def compiledFeaturesNone : Nat := 0

/-- `runtimeFeatures()` on an x86 build without a CPUID detection path (a
compiler that is neither MSVC nor GCC-like; Cpu.h line 1632):
`constexpr Features runtimeFeatures() { return compiledFeatures(); }`. -/
def runtimeFeaturesNoProbeX86 (tSse2 tSse3 tSsse3 tSse41 tSse42 tPopcnt
    tLzcnt tAvx tAvxFma tAvxF16c tAvx2 : Bool) : Nat :=
  compiledFeaturesX86 tSse2 tSse3 tSsse3 tSse41 tSse42 tPopcnt tLzcnt
    tAvx tAvxFma tAvxF16c tAvx2

/-- `runtimeFeatures()` on an ARM build without a getauxval/sysctlbyname
detection path (Cpu.h line 1632). -/
def runtimeFeaturesNoProbeArm (tNeon tNeonFma tNeonFp16 : Bool) : Nat :=
  compiledFeaturesArm tNeon tNeonFma tNeonFp16

/-- `runtimeFeatures()` on WebAssembly, which never probes (Cpu.h
line 1632). -/
def runtimeFeaturesNoProbeWasm (tSimd128 : Bool) : Nat :=
  compiledFeaturesWasm tSimd128

/-- `runtimeFeatures()` on any other platform (Cpu.h line 1632). -/
def runtimeFeaturesNoProbeNone : Nat := compiledFeaturesNone

/-! ## Spec-side definitions

These are stated from the specification's words, not from the source, and
are used only on the specification side of theorems. -/

/-- Spec-side: population count by the textbook "add the low bit, recurse
on the halved value" recursion, with explicit fuel (any fuel of at least
`n` computes it fully; `popCountNat` passes `n` itself).  `Nat.rec` keeps
kernel reduction cheap. -/
def popCountFuel (fuel : Nat) : Nat → Nat :=
  Nat.rec (motive := fun _ => Nat → Nat) (fun _ => 0)
    (fun _ ih m => if m = 0 then 0 else m % 2 + ih (m / 2)) fuel

/-- Spec-side: the number of set bits of `n`. -/
def popCountNat (n : Nat) : Nat := popCountFuel n n

/-! ## Helper lemmas about the fuelled recursions -/

theorem bitIndexFuel_succ (f a : Nat) :
    bitIndexFuel (f + 1) a = if a = 0 then 0 else 1 + bitIndexFuel f (a / 2) :=
  rfl

theorem bitIndexFuel_zero_arg (f : Nat) : bitIndexFuel f 0 = 0 := by
  cases f <;> rfl

theorem bitIndexFuel_congr (a : Nat) :
    ∀ f g, a ≤ f → a ≤ g → bitIndexFuel f a = bitIndexFuel g a := by
  induction a using Nat.strong_induction_on with
  | _ a ih =>
    intro f g hf hg
    by_cases ha : a = 0
    · subst ha
      rw [bitIndexFuel_zero_arg, bitIndexFuel_zero_arg]
    · obtain ⟨f, rfl⟩ : ∃ k, f = k + 1 := ⟨f - 1, by omega⟩
      obtain ⟨g, rfl⟩ : ∃ k, g = k + 1 := ⟨g - 1, by omega⟩
      rw [bitIndexFuel_succ, bitIndexFuel_succ, if_neg ha, if_neg ha,
        ih (a / 2) (by omega) f g (by omega) (by omega)]

theorem bitIndex_zero : bitIndex 0 = 0 := rfl

theorem bitIndex_div2 (a : Nat) (h : a ≠ 0) :
    bitIndex a = 1 + bitIndex (a / 2) := by
  match a, h with
  | a + 1, _ =>
    show bitIndexFuel (a + 1) (a + 1) = 1 + bitIndexFuel ((a + 1) / 2) ((a + 1) / 2)
    rw [bitIndexFuel_succ, if_neg (by omega),
      bitIndexFuel_congr ((a + 1) / 2) a ((a + 1) / 2) (by omega) (by omega)]

/-- `BitIndex<A>::Value` is `0` at `0` and one more than the floor base-2
logarithm otherwise. -/
theorem bitIndex_eq_log2 (a : Nat) :
    bitIndex a = if a = 0 then 0 else Nat.log2 a + 1 := by
  induction a using Nat.strong_induction_on with
  | _ a ih =>
    by_cases ha : a = 0
    · simp [ha, bitIndex_zero]
    · rw [bitIndex_div2 a ha, if_neg ha]
      by_cases h2 : a ≥ 2
      · rw [ih (a / 2) (by omega)]
        rw [if_neg (by omega)]
        conv_rhs => rw [Nat.log2]
        rw [if_pos h2]
        omega
      · have h1 : a = 1 := by omega
        subst h1
        have hl : Nat.log2 1 = 0 := by rw [Nat.log2]; simp
        simp [hl, bitIndex_zero]

theorem bitIndex_two_pow (i : Nat) : bitIndex (2 ^ i) = i + 1 := by
  rw [bitIndex_eq_log2, if_neg (Nat.two_pow_pos i).ne', Nat.log2_eq_log_two,
    Nat.log_pow (by omega)]

theorem popCountFuel_succ (f m : Nat) :
    popCountFuel (f + 1) m = if m = 0 then 0 else m % 2 + popCountFuel f (m / 2) :=
  rfl

theorem popCountFuel_zero_arg (f : Nat) : popCountFuel f 0 = 0 := by
  cases f <;> rfl

theorem popCountFuel_congr (m : Nat) :
    ∀ f g, m ≤ f → m ≤ g → popCountFuel f m = popCountFuel g m := by
  induction m using Nat.strong_induction_on with
  | _ m ih =>
    intro f g hf hg
    by_cases hm : m = 0
    · subst hm
      rw [popCountFuel_zero_arg, popCountFuel_zero_arg]
    · obtain ⟨f, rfl⟩ : ∃ k, f = k + 1 := ⟨f - 1, by omega⟩
      obtain ⟨g, rfl⟩ : ∃ k, g = k + 1 := ⟨g - 1, by omega⟩
      rw [popCountFuel_succ, popCountFuel_succ, if_neg hm, if_neg hm,
        ih (m / 2) (by omega) f g (by omega) (by omega)]

theorem popCountNat_zero : popCountNat 0 = 0 := rfl

theorem popCountNat_div2 (n : Nat) (h : n ≠ 0) :
    popCountNat n = n % 2 + popCountNat (n / 2) := by
  match n, h with
  | n + 1, _ =>
    show popCountFuel (n + 1) (n + 1) = _
    rw [popCountFuel_succ, if_neg (by omega),
      popCountFuel_congr ((n + 1) / 2) n ((n + 1) / 2) (by omega) (by omega)]
    rfl

/-- Spec-side popcount splits across a digit boundary: the set bits of
`u * 2^k + v` with `v < 2^k` are the set bits of `u` plus those of `v`. -/
theorem popCountNat_mul_pow_add (k : Nat) :
    ∀ u v, v < 2 ^ k → popCountNat (u * 2 ^ k + v) = popCountNat u + popCountNat v := by
  induction k with
  | zero =>
    intro u v hv
    have : v = 0 := by omega
    subst this
    simp [popCountNat_zero]
  | succ k ih =>
    intro u v hv
    by_cases hz : u * 2 ^ (k + 1) + v = 0
    · have hu : u = 0 := by
        rcases Nat.mul_eq_zero.mp (by omega : u * 2 ^ (k + 1) = 0) with h | h
        · exact h
        · exact absurd h (Nat.pos_iff_ne_zero.mp (Nat.two_pow_pos _))
      have hv0 : v = 0 := by omega
      subst hu; subst hv0
      simp [popCountNat_zero]
    · have hsplit : u * 2 ^ (k + 1) + v = 2 * (u * 2 ^ k) + v := by
        rw [Nat.pow_succ]; ring
      rw [popCountNat_div2 _ hz, hsplit, Nat.mul_add_mod,
        Nat.mul_add_div (by omega), ih u (v / 2) (by omega)]
      by_cases hv0 : v = 0
      · subst hv0
        simp [popCountNat_zero]
      · rw [popCountNat_div2 v hv0]
        omega

theorem popCountNat_two_pow (i : Nat) : popCountNat (2 ^ i) = 1 := by
  induction i with
  | zero => rfl
  | succ i ih =>
    have hz : 2 ^ (i + 1) ≠ 0 := Nat.pos_iff_ne_zero.mp (Nat.two_pow_pos _)
    have hpow : 2 ^ (i + 1) = 2 * 2 ^ i := by rw [Nat.pow_succ]; omega
    rw [popCountNat_div2 _ hz, hpow]
    rw [Nat.mul_mod_right, Nat.mul_div_cancel_left _ (by omega)]
    omega

/-! ## Bitwise digit-splitting helpers

These let us reason about the 16-bit SWAR popcount by splitting a 16-bit
value into its two bytes. -/

theorem and_digit_split {k : Nat} (u m : Nat) {v n : Nat} (hv : v < 2 ^ k)
    (hn : n < 2 ^ k) :
    (u * 2 ^ k + v) &&& (m * 2 ^ k + n) = (u &&& m) * 2 ^ k + (v &&& n) := by
  apply Nat.eq_of_testBit_eq
  intro i
  have hvn : v &&& n < 2 ^ k := lt_of_le_of_lt Nat.and_le_left hv
  rw [Nat.testBit_and, Nat.mul_comm u, Nat.mul_comm m, Nat.mul_comm (u &&& m),
    Nat.testBit_mul_pow_two_add _ hv, Nat.testBit_mul_pow_two_add _ hn,
    Nat.testBit_mul_pow_two_add _ hvn]
  by_cases hik : i < k
  · simp [hik]
  · simp [hik, Nat.testBit_and]

theorem and_byte_split (u m : Nat) {v n : Nat} (hv : v < 256) (hn : n < 256) :
    (u * 256 + v) &&& (m * 256 + n) = (u &&& m) * 256 + (v &&& n) := by
  have h := and_digit_split (k := 8) u m
    (v := v) (n := n) (by norm_num [hv]) (by norm_num [hn])
  norm_num at h
  exact h

theorem and_drop_high {k : Nat} (x : Nat) {y m : Nat} (hy : y < 2 ^ k)
    (hm : m < 2 ^ k) : (x * 2 ^ k + y) &&& m = y &&& m := by
  have h := and_digit_split (k := k) x 0 hy hm
  simpa using h

/-! ## Byte-level stages of the SWAR popcount

`bitCount` works on 16-bit values; every stage before the final byte merge
operates on the two bytes independently.  The three functions below are the
corresponding 8-bit stages. -/

/-- Stage `C` of `BitCount` restricted to one byte: sums of 2-bit fields. -/
def bitCountByteC (x : Nat) : Nat := (x &&& 0x55) + ((x >>> 1) &&& 0x55)

/-- Stage `E` of `BitCount` restricted to one byte: sums of 4-bit fields. -/
def bitCountByteE (x : Nat) : Nat :=
  (bitCountByteC x &&& 0x33) + ((bitCountByteC x >>> 2) &&& 0x33)

/-- Stage `G` of `BitCount` restricted to one byte: the byte's popcount. -/
def bitCountByteG (x : Nat) : Nat :=
  (bitCountByteE x &&& 0x0f) + ((bitCountByteE x >>> 4) &&& 0x0f)

theorem bitCountByteC_lt (x : Nat) : bitCountByteC x < 256 := by
  have h1 : x &&& 0x55 ≤ 0x55 := Nat.and_le_right
  have h2 : (x >>> 1) &&& 0x55 ≤ 0x55 := Nat.and_le_right
  unfold bitCountByteC
  omega

theorem bitCountByteE_lt (x : Nat) : bitCountByteE x < 256 := by
  have h1 : bitCountByteC x &&& 0x33 ≤ 0x33 := Nat.and_le_right
  have h2 : (bitCountByteC x >>> 2) &&& 0x33 ≤ 0x33 := Nat.and_le_right
  unfold bitCountByteE
  omega

theorem bitCountByteG_lt (x : Nat) : bitCountByteG x < 256 := by
  have h1 : bitCountByteE x &&& 0x0f ≤ 0x0f := Nat.and_le_right
  have h2 : (bitCountByteE x >>> 4) &&& 0x0f ≤ 0x0f := Nat.and_le_right
  unfold bitCountByteG
  omega

/-- The 16-bit SWAR popcount splits into the per-byte stages: it adds the
byte popcounts of the low and high byte. -/
theorem bitCount_byte (hh ll : Nat) (hll : ll < 256) :
    bitCount (hh * 256 + ll) = bitCountByteG ll + bitCountByteG hh := by
  have hll2 : ll >>> 1 < 128 := by
    rw [Nat.shiftRight_eq_div_pow]
    omega
  have hb0 : (hh * 256 + ll) &&& 0x5555 =
      (hh &&& 0x55) * 256 + (ll &&& 0x55) := by
    rw [show (0x5555 : Nat) = 0x55 * 256 + 0x55 by norm_num]
    exact and_byte_split hh 0x55 hll (by norm_num)
  have hshift1 : (hh * 256 + ll) >>> 1 =
      (hh >>> 1) * 256 + ((hh % 2) * 128 + ll >>> 1) := by
    rw [Nat.shiftRight_eq_div_pow, Nat.shiftRight_eq_div_pow,
      Nat.shiftRight_eq_div_pow]
    omega
  have hb1 : ((hh * 256 + ll) >>> 1) &&& 0x5555 =
      ((hh >>> 1) &&& 0x55) * 256 + ((ll >>> 1) &&& 0x55) := by
    rw [hshift1, show (0x5555 : Nat) = 0x55 * 256 + 0x55 by norm_num,
      and_byte_split (hh >>> 1) 0x55 (by omega) (by norm_num)]
    have hdrop : ((hh % 2) * 128 + ll >>> 1) &&& 0x55 = (ll >>> 1) &&& 0x55 := by
      have h := and_drop_high (k := 7) (hh % 2)
        (y := ll >>> 1) (m := 0x55) (by norm_num [hll2]) (by norm_num)
      norm_num at h ⊢
      exact h
    rw [hdrop]
  have hc : ((hh &&& 0x55) * 256 + (ll &&& 0x55)) +
      (((hh >>> 1) &&& 0x55) * 256 + ((ll >>> 1) &&& 0x55)) =
      bitCountByteC hh * 256 + bitCountByteC ll := by
    unfold bitCountByteC
    ring
  have hcllt : bitCountByteC ll < 256 := bitCountByteC_lt ll
  have hclt2 : bitCountByteC ll >>> 2 < 64 := by
    rw [Nat.shiftRight_eq_div_pow]
    omega
  have hd0 : (bitCountByteC hh * 256 + bitCountByteC ll) &&& 0x3333 =
      (bitCountByteC hh &&& 0x33) * 256 + (bitCountByteC ll &&& 0x33) := by
    rw [show (0x3333 : Nat) = 0x33 * 256 + 0x33 by norm_num]
    exact and_byte_split _ 0x33 hcllt (by norm_num)
  have hshift2 : (bitCountByteC hh * 256 + bitCountByteC ll) >>> 2 =
      (bitCountByteC hh >>> 2) * 256 +
        ((bitCountByteC hh % 4) * 64 + bitCountByteC ll >>> 2) := by
    rw [Nat.shiftRight_eq_div_pow, Nat.shiftRight_eq_div_pow,
      Nat.shiftRight_eq_div_pow]
    omega
  have hd2 : ((bitCountByteC hh * 256 + bitCountByteC ll) >>> 2) &&& 0x3333 =
      ((bitCountByteC hh >>> 2) &&& 0x33) * 256 +
        ((bitCountByteC ll >>> 2) &&& 0x33) := by
    rw [hshift2, show (0x3333 : Nat) = 0x33 * 256 + 0x33 by norm_num,
      and_byte_split _ 0x33 (by omega) (by norm_num)]
    have hdrop : ((bitCountByteC hh % 4) * 64 + bitCountByteC ll >>> 2) &&& 0x33 =
        (bitCountByteC ll >>> 2) &&& 0x33 := by
      have h := and_drop_high (k := 6) (bitCountByteC hh % 4)
        (y := bitCountByteC ll >>> 2) (m := 0x33) (by norm_num [hclt2]) (by norm_num)
      norm_num at h ⊢
      exact h
    rw [hdrop]
  have he : ((bitCountByteC hh &&& 0x33) * 256 + (bitCountByteC ll &&& 0x33)) +
      (((bitCountByteC hh >>> 2) &&& 0x33) * 256 +
        ((bitCountByteC ll >>> 2) &&& 0x33)) =
      bitCountByteE hh * 256 + bitCountByteE ll := by
    unfold bitCountByteE
    ring
  have hellt : bitCountByteE ll < 256 := bitCountByteE_lt ll
  have helt4 : bitCountByteE ll >>> 4 < 16 := by
    rw [Nat.shiftRight_eq_div_pow]
    omega
  have hf0 : (bitCountByteE hh * 256 + bitCountByteE ll) &&& 0x0f0f =
      (bitCountByteE hh &&& 0x0f) * 256 + (bitCountByteE ll &&& 0x0f) := by
    rw [show (0x0f0f : Nat) = 0x0f * 256 + 0x0f by norm_num]
    exact and_byte_split _ 0x0f hellt (by norm_num)
  have hshift4 : (bitCountByteE hh * 256 + bitCountByteE ll) >>> 4 =
      (bitCountByteE hh >>> 4) * 256 +
        ((bitCountByteE hh % 16) * 16 + bitCountByteE ll >>> 4) := by
    rw [Nat.shiftRight_eq_div_pow, Nat.shiftRight_eq_div_pow,
      Nat.shiftRight_eq_div_pow]
    omega
  have hf4 : ((bitCountByteE hh * 256 + bitCountByteE ll) >>> 4) &&& 0x0f0f =
      ((bitCountByteE hh >>> 4) &&& 0x0f) * 256 +
        ((bitCountByteE ll >>> 4) &&& 0x0f) := by
    rw [hshift4, show (0x0f0f : Nat) = 0x0f * 256 + 0x0f by norm_num,
      and_byte_split _ 0x0f (by omega) (by norm_num)]
    have hdrop : ((bitCountByteE hh % 16) * 16 + bitCountByteE ll >>> 4) &&& 0x0f =
        (bitCountByteE ll >>> 4) &&& 0x0f := by
      have h := and_drop_high (k := 4) (bitCountByteE hh % 16)
        (y := bitCountByteE ll >>> 4) (m := 0x0f) (by norm_num [helt4]) (by norm_num)
      norm_num at h ⊢
      exact h
    rw [hdrop]
  have hg : ((bitCountByteE hh &&& 0x0f) * 256 + (bitCountByteE ll &&& 0x0f)) +
      (((bitCountByteE hh >>> 4) &&& 0x0f) * 256 +
        ((bitCountByteE ll >>> 4) &&& 0x0f)) =
      bitCountByteG hh * 256 + bitCountByteG ll := by
    unfold bitCountByteG
    ring
  have hgllt : bitCountByteG ll < 256 := bitCountByteG_lt ll
  have hh0 : (bitCountByteG hh * 256 + bitCountByteG ll) &&& 0x00ff =
      bitCountByteG ll := by
    rw [show (0x00ff : Nat) = 0 * 256 + 0xff by norm_num,
      and_byte_split _ 0 hgllt (by norm_num)]
    have h := Nat.and_pow_two_sub_one_eq_mod (bitCountByteG ll) 8
    norm_num at h
    simp [h, Nat.mod_eq_of_lt hgllt]
  have hh8 : (bitCountByteG hh * 256 + bitCountByteG ll) >>> 8 =
      bitCountByteG hh := by
    rw [Nat.shiftRight_eq_div_pow]
    omega
  have hhfix : bitCountByteG hh &&& 255 = bitCountByteG hh := by
    have h := Nat.and_pow_two_sub_one_eq_mod (bitCountByteG hh) 8
    norm_num at h
    rw [h, Nat.mod_eq_of_lt (bitCountByteG_lt hh)]
  unfold bitCount
  dsimp only [Nat.shiftRight_zero]
  rw [hb0, hb1, hc, hd0, hd2, he, hf0, hf4, hg, hh0, hh8, hhfix]

set_option maxRecDepth 4000 in
/-- The byte-level SWAR stages compute the popcount of a byte: checked
exhaustively over all 256 byte values. -/
theorem bitCountByteG_eq_popCountNat : ∀ x, x < 256 → bitCountByteG x = popCountNat x := by
  decide

/-- `BitCount<A>::Value` is the population count for every 16-bit value. -/
theorem bitCount_eq_popCountNat (a : Nat) (h : a < 65536) :
    bitCount a = popCountNat a := by
  have h2 : a / 256 < 256 := by omega
  have h3 : a % 256 < 256 := by omega
  have hsplit : a = a / 256 * 256 + a % 256 := by omega
  calc bitCount a = bitCount (a / 256 * 256 + a % 256) := by rw [← hsplit]
    _ = bitCountByteG (a % 256) + bitCountByteG (a / 256) :=
        bitCount_byte _ _ h3
    _ = popCountNat (a % 256) + popCountNat (a / 256) := by
        rw [bitCountByteG_eq_popCountNat _ h3, bitCountByteG_eq_popCountNat _ h2]
    _ = popCountNat (a / 256 * 256 + a % 256) := by
        have hp := popCountNat_mul_pow_add 8 (a / 256) (a % 256) (by norm_num [h3])
        norm_num at hp
        omega
    _ = popCountNat a := by rw [← hsplit]

/-! ## Boolean-algebra helpers on masks -/

theorem and_or_self_left (a b : Nat) : (a ||| b) &&& a = a := by
  apply Nat.eq_of_testBit_eq
  intro i
  rw [Nat.testBit_and, Nat.testBit_or]
  cases a.testBit i <;> simp

theorem and_and_self_left (a b : Nat) : (a &&& b) &&& a = a &&& b := by
  apply Nat.eq_of_testBit_eq
  intro i
  simp only [Nat.testBit_and]
  cases a.testBit i <;> simp

theorem and_or_distrib_right_nat (a b m : Nat) :
    (a ||| b) &&& m = (a &&& m) ||| (b &&& m) := by
  apply Nat.eq_of_testBit_eq
  intro i
  simp only [Nat.testBit_and, Nat.testBit_or]
  cases a.testBit i <;> cases b.testBit i <;> cases m.testBit i <;> simp

theorem and_subset_trans (f m r : Nat) (h : (f &&& m) &&& r = r) :
    f &&& r = r := by
  apply Nat.eq_of_testBit_eq
  intro i
  have hb := congrArg (fun x => Nat.testBit x i) h
  simp only [Nat.testBit_and] at hb ⊢
  cases hf : f.testBit i <;> cases hm : m.testBit i <;>
    cases hr : r.testBit i <;> simp_all

/-! ## Single-bit characterisations -/

theorem and_two_mul_add_one (u : Nat) : (2 * u + 1) &&& (2 * u) = 2 * u := by
  apply Nat.eq_of_testBit_eq
  intro i
  rw [Nat.testBit_and]
  cases i with
  | zero => simp [Nat.testBit_zero, Nat.mul_add_mod]
  | succ i =>
    rw [Nat.testBit_add_one, Nat.testBit_add_one,
      show (2 * u + 1) / 2 = u by omega, show 2 * u / 2 = u by omega]
    cases u.testBit i <;> simp

theorem and_two_mul_pred (u : Nat) :
    (2 * u) &&& (2 * u - 1) = 2 * ((u &&& (u - 1))) := by
  apply Nat.eq_of_testBit_eq
  intro i
  rw [Nat.testBit_and]
  cases i with
  | zero =>
    simp [Nat.testBit_zero, Nat.mul_add_mod, show 2 * u % 2 = 0 by omega,
      show 2 * (u &&& (u - 1)) % 2 = 0 by omega]
  | succ i =>
    rw [Nat.testBit_add_one, Nat.testBit_add_one, Nat.testBit_add_one,
      show 2 * u / 2 = u by omega, show (2 * u - 1) / 2 = u - 1 by omega,
      show 2 * (u &&& (u - 1)) / 2 = u &&& (u - 1) by omega, Nat.testBit_and]

/-- The classic `x & (x - 1) == 0` test implies at most one set bit. -/
theorem popCountNat_le_one_of_and_pred (x : Nat) (h : x &&& (x - 1) = 0) :
    popCountNat x ≤ 1 := by
  induction x using Nat.strong_induction_on with
  | _ x ih =>
    by_cases hx : x = 0
    · subst hx
      simp [popCountNat_zero]
    · by_cases hpar : x % 2 = 1
      · -- odd: `x - 1` is even and shares all bits of `x` above bit 0
        have hodd : x = 2 * (x / 2) + 1 := by omega
        have hself : x &&& (x - 1) = x - 1 := by
          conv_lhs => rw [hodd]
          rw [show x - 1 = 2 * (x / 2) by omega]
          exact and_two_mul_add_one (x / 2)
        have hx1 : x = 1 := by omega
        subst hx1
        have : popCountNat 1 = 1 := rfl
        omega
      · -- even and nonzero: divide the test by two and recurse
        have heven : x = 2 * (x / 2) := by omega
        have hu : x / 2 ≠ 0 := by omega
        have hrec : x &&& (x - 1) = 2 * ((x / 2) &&& (x / 2 - 1)) := by
          conv_lhs => rw [heven]
          exact and_two_mul_pred (x / 2)
        have hz : (x / 2) &&& (x / 2 - 1) = 0 := by omega
        have hp := ih (x / 2) (by omega) hz
        rw [popCountNat_div2 x hx]
        omega

theorem popCountNat_two_pow_or (i j : Nat) (h : j < i) :
    popCountNat (2 ^ i ||| 2 ^ j) = 2 := by
  have hlt : (2 : Nat) ^ j < 2 ^ i := Nat.pow_lt_pow_right (by omega) h
  have hor : 2 ^ i ||| 2 ^ j = 1 * 2 ^ i + 2 ^ j := by
    have h2 := Nat.mul_add_lt_is_or (b := 2 ^ j) (i := i) hlt 1
    rw [Nat.mul_one] at h2
    rw [Nat.one_mul]
    exact h2.symm
  rw [hor, popCountNat_mul_pow_add i 1 (2 ^ j) hlt, popCountNat_two_pow]
  rfl

/-! ## Correctness of the base-tag dispatcher -/

set_option maxRecDepth 4000 in
theorem dispatcherBase_spec_bounded : ∀ g, g < 256 →
    dispatcherBase g ∈ baseVariants ∧
    featuresGe g (dispatcherBase g) ∧
    (g &&& 255 = 0 → dispatcherBase g = scalar) ∧
    (∀ v ∈ baseVariants, featuresGe g v →
      priorityVal extraTagCountX86 v ≤ priorityVal extraTagCountX86 (dispatcherBase g)) := by
  decide

theorem dispatcherBase_and_255 (f : Nat) :
    dispatcherBase (f &&& 255) = dispatcherBase f := by
  have h : ∀ c : Nat, 255 &&& c = c → (f &&& 255) &&& c = f &&& c := by
    intro c hc
    rw [Nat.and_assoc, hc]
  unfold dispatcherBase
  simp only [h avx512f (by decide), h avx2 (by decide), h avx (by decide),
    h sse42 (by decide), h sse41 (by decide), h ssse3 (by decide),
    h sse3 (by decide), h sse2 (by decide)]

theorem and_and_mask (o v e : Nat) :
    (o &&& v) &&& e = (o &&& e) &&& (v &&& e) := by
  apply Nat.eq_of_testBit_eq
  intro i
  simp only [Nat.testBit_and]
  cases o.testBit i <;> cases v.testBit i <;> cases e.testBit i <;> simp

theorem bitCount_le_four_of_lt16 : ∀ x, x < 16 → bitCount x ≤ 4 := by
  decide

/-- Spec-side: the conversion rule exactly as the specification words it —
"valid only when the target's base tag is the same-or-descendant of the
source's, and the target's extra bits are a superset of the source's".
Base tags sit lower in the hierarchy exactly when their single-bit mask is
numerically smaller (Cpu.h line 593: "Features earlier in the hierarchy
should have lower bits set"), so same-or-descendant means a numerically
greater-or-equal base mask. -/
def specTagConversionAllowed (source target : Nat) : Bool :=
  (decide ((target &&& baseTagMask) ≥ (source &&& baseTagMask))) &&
  (((target &&& source) &&& extraTagMask) == (source &&& extraTagMask))

/-! ## Claim theorems -/

/-- C1: for every capability set with at most one base bit set and extra
bits inside the defined extra range, the priority computed by
`Implementation::priority` equals `baseRank * (maxExtraTagCount + 1) +
extraRank`, where `baseRank` is 0 for Scalar and `i + 1` for the base tag
occupying bit `i`, `maxExtraTagCount` is `ExtraTagCount` (4 on x86, 0
elsewhere), and `extraRank` is the population count of the extra bits. -/
theorem priority_eq_rank_formula (etc value : Nat)
    (hetc : etc = extraTagCountX86 ∨ etc = extraTagCountOther)
    (hextra : (value &&& extraTagMask) >>> extraTagBitOffset < 1 <<< etc) :
    (value &&& baseTagMask = 0 →
      priorityVal etc value =
        0 * (etc + 1) +
          popCountNat ((value &&& extraTagMask) >>> extraTagBitOffset)) ∧
    (∀ i, i < 16 → value &&& baseTagMask = 1 <<< i →
      priorityVal etc value =
        (i + 1) * (etc + 1) +
          popCountNat ((value &&& extraTagMask) >>> extraTagBitOffset)) := by
  have hext16 : (value &&& extraTagMask) >>> extraTagBitOffset < 65536 := by
    rcases hetc with h | h
    · subst h
      have h16 : (1 <<< extraTagCountX86 : Nat) = 16 := rfl
      omega
    · subst h
      have h1 : (1 <<< extraTagCountOther : Nat) = 1 := rfl
      omega
  have hbc : bitCount ((value &&& extraTagMask) >>> extraTagBitOffset) =
      popCountNat ((value &&& extraTagMask) >>> extraTagBitOffset) :=
    bitCount_eq_popCountNat _ hext16
  constructor
  · intro h0
    unfold priorityVal
    rw [h0, bitIndex_zero, hbc]
  · intro i hi hbit
    unfold priorityVal
    rw [hbit, Nat.one_shiftLeft, bitIndex_two_pow, hbc]

/-- C1 witness: the formula evaluated at `Avx2 | Popcnt | AvxFma` with the
x86 extra-tag count. -/
theorem priority_eq_rank_formula_witness :
    priorityVal extraTagCountX86 (avx2 ||| popcnt ||| avxFma) =
      (6 + 1) * (extraTagCountX86 + 1) +
        popCountNat (((avx2 ||| popcnt ||| avxFma) &&& extraTagMask) >>>
          extraTagBitOffset) :=
  (priority_eq_rank_formula extraTagCountX86 (avx2 ||| popcnt ||| avxFma)
    (Or.inl rfl) (by decide)).2 6 (by decide) (by decide)

/-- C2: priority is strictly monotonic in base rank — between two sets with
at most one base bit each, whose base tiers satisfy `i < j`, the
higher-tier set has strictly larger priority no matter which in-range
extra tags either carries, because the extra rank is bounded by the extra
tag count. -/
theorem priority_strictMono_baseRank (a b ra rb : Nat)
    (hBa : (ra = 0 ∧ a &&& baseTagMask = 0) ∨
      (∃ i, i < 16 ∧ ra = i + 1 ∧ a &&& baseTagMask = 1 <<< i))
    (hBb : (rb = 0 ∧ b &&& baseTagMask = 0) ∨
      (∃ j, j < 16 ∧ rb = j + 1 ∧ b &&& baseTagMask = 1 <<< j))
    (hextra : (a &&& extraTagMask) >>> extraTagBitOffset < 1 <<< extraTagCountX86)
    (hrank : ra < rb) :
    priorityVal extraTagCountX86 a < priorityVal extraTagCountX86 b := by
  have hia : bitIndex (a &&& baseTagMask) = ra := by
    rcases hBa with ⟨hr, hm⟩ | ⟨i, _, hr, hm⟩
    · rw [hm, bitIndex_zero, hr]
    · rw [hm, Nat.one_shiftLeft, bitIndex_two_pow, hr]
  have hib : bitIndex (b &&& baseTagMask) = rb := by
    rcases hBb with ⟨hr, hm⟩ | ⟨j, _, hr, hm⟩
    · rw [hm, bitIndex_zero, hr]
    · rw [hm, Nat.one_shiftLeft, bitIndex_two_pow, hr]
  have h16 : (1 <<< extraTagCountX86 : Nat) = 16 := rfl
  have hea : bitCount ((a &&& extraTagMask) >>> extraTagBitOffset) ≤ 4 :=
    bitCount_le_four_of_lt16 _ (by omega)
  unfold priorityVal
  rw [hia, hib]
  have h5 : (extraTagCountX86 + 1 : Nat) = 5 := rfl
  rw [h5]
  omega

/-- C2 witness: a maximally-extra-laden SSE2 set still ranks strictly below
a bare SSE3 set. -/
theorem priority_strictMono_baseRank_witness :
    priorityVal extraTagCountX86 (sse2 ||| popcnt ||| lzcnt ||| avxF16c ||| avxFma) <
      priorityVal extraTagCountX86 sse3 :=
  priority_strictMono_baseRank _ _ 1 2
    (Or.inr ⟨0, by decide, rfl, by decide⟩) (Or.inr ⟨1, by decide, rfl, by decide⟩)
    (by decide) (by decide)

/-- C5 counterexample: the specification's conversion rule and the code
disagree on direction.  Converting the single-tag set `Sse2` (source) to
`Sse3` (target) satisfies the spec's rule — the target's base tag `Sse3`
is a descendant of the source's `Sse2`, and the extras (none) are a
superset — yet `IsTagConversionAllowed<Sse3, Sse2>::Value` is false, so
the code rejects it; conversely the code permits converting `Sse3` down to
`Sse2`, which the spec's rule forbids. -/
theorem tagConversion_direction_counterexample :
    specTagConversionAllowed sse2 sse3 = true ∧
    isTagConversionAllowed sse3 sse2 = false ∧
    specTagConversionAllowed sse3 sse2 = false ∧
    isTagConversionAllowed sse2 sse3 = true := by
  decide

/-- C5 amended: provided both sides have at most one base bit (the
constructors' own guard), a conversion from source `otherValue` to target
`value` is permitted exactly when the SOURCE's base tag is the same as or
a descendant of the TARGET's (numerically greater-or-equal base mask) and
the SOURCE's extra bits are a superset of the TARGET's — i.e. the source
is at least as capable as the target. -/
theorem tagConversionAllowed_characterisation (value otherValue : Nat)
    (hv : (value &&& baseTagMask) &&& ((value &&& baseTagMask) - 1) = 0)
    (ho : (otherValue &&& baseTagMask) &&& ((otherValue &&& baseTagMask) - 1) = 0) :
    isTagConversionAllowed value otherValue = true ↔
      ((value &&& baseTagMask) ≤ (otherValue &&& baseTagMask) ∧
        featuresGe (otherValue &&& extraTagMask) (value &&& extraTagMask)) := by
  unfold isTagConversionAllowed
  rw [and_and_mask otherValue value extraTagMask]
  simp [hv, ho, Bool.and_eq_true, decide_eq_true_eq, beq_iff_eq, featuresGe,
    ge_iff_le]

/-- C5 amended witness: converting `Avx2 | Popcnt` down to plain `Sse2`. -/
theorem tagConversionAllowed_characterisation_witness :
    isTagConversionAllowed sse2 (avx2 ||| popcnt) = true ↔
      ((sse2 &&& baseTagMask) ≤ ((avx2 ||| popcnt) &&& baseTagMask) ∧
        featuresGe ((avx2 ||| popcnt) &&& extraTagMask) (sse2 &&& extraTagMask)) :=
  tagConversionAllowed_characterisation sse2 (avx2 ||| popcnt)
    (by decide) (by decide)

/-- C6: or-ing two tag combinations that each carry exactly one, different,
base bit (via `Tags::operator|`, which performs no check) produces a set
with two base bits, and every binding point rejects that set: the
`static_assert` in `Implementation::priority` fails for it (modelled as
`priorityChecked = none`, for any platform extra-tag count), and both
converting constructors refuse it in either role, so the contradictory
set can never be used in a declaration or conversion. -/
theorem compose_different_bases_rejected (a b i j : Nat)
    (_hi : i < 16) (_hj : j < 16) (hij : i ≠ j)
    (ha : a &&& baseTagMask = 1 <<< i) (hb : b &&& baseTagMask = 1 <<< j) :
    popCountNat (tagsOr a b &&& baseTagMask) = 2 ∧
    (∀ etc, priorityChecked etc (tagsOr a b) = none) ∧
    (∀ x, isTagConversionAllowed (tagsOr a b) x = false) ∧
    (∀ x, isTagConversionAllowed x (tagsOr a b) = false) := by
  have hsplit : tagsOr a b &&& baseTagMask = 2 ^ i ||| 2 ^ j := by
    unfold tagsOr
    rw [and_or_distrib_right_nat, ha, hb, Nat.one_shiftLeft, Nat.one_shiftLeft]
  have hpop : popCountNat (tagsOr a b &&& baseTagMask) = 2 := by
    rw [hsplit]
    rcases Nat.lt_or_ge i j with h | h
    · rw [Nat.or_comm]
      exact popCountNat_two_pow_or j i h
    · exact popCountNat_two_pow_or i j (by omega)
  have hguard : (tagsOr a b &&& baseTagMask) &&&
      ((tagsOr a b &&& baseTagMask) - 1) ≠ 0 := by
    intro hzero
    have := popCountNat_le_one_of_and_pred _ hzero
    omega
  refine ⟨hpop, ?_, ?_, ?_⟩
  · intro etc
    unfold priorityChecked
    rw [if_neg]
    intro hcond
    exact hguard hcond.1
  · intro x
    unfold isTagConversionAllowed
    simp [hguard]
  · intro x
    unfold isTagConversionAllowed
    simp [hguard]

/-- C6 witness: composing `Sse2` with `Sse3`. -/
theorem compose_different_bases_rejected_witness :
    popCountNat (tagsOr sse2 sse3 &&& baseTagMask) = 2 ∧
    priorityChecked extraTagCountX86 (tagsOr sse2 sse3) = none ∧
    isTagConversionAllowed (tagsOr sse2 sse3) avx2 = false ∧
    isTagConversionAllowed avx2 (tagsOr sse2 sse3) = false := by
  have h := compose_different_bases_rejected sse2 sse3 0 1
    (by decide) (by decide) (by decide) (by decide) (by decide)
  exact ⟨h.1, h.2.1 extraTagCountX86, h.2.2.1 avx2, h.2.2.2 avx2⟩

/-- C7: for all 32-bit feature sets A and B, `A|B` is a superset of both A
and B and `A&B` is a subset of both (with subset and superset as computed
by `Features::operator<=` and `operator>=`), double complement is the
identity, and union and intersection are idempotent. -/
theorem features_lattice_algebra (a b : Nat) (_ha : a < 2 ^ 32) (_hb : b < 2 ^ 32) :
    featuresGe (featuresOr a b) a ∧ featuresGe (featuresOr a b) b ∧
    featuresLe (featuresAnd a b) a ∧ featuresLe (featuresAnd a b) b ∧
    featuresCompl (featuresCompl a) = a ∧
    featuresOr a a = a ∧ featuresAnd a a = a := by
  refine ⟨?_, ?_, ?_, ?_, ?_, Nat.or_self a, Nat.and_self a⟩
  · exact and_or_self_left a b
  · show (a ||| b) &&& b = b
    rw [Nat.or_comm]
    exact and_or_self_left b a
  · exact and_and_self_left a b
  · show (a &&& b) &&& b = a &&& b
    rw [Nat.and_assoc, Nat.and_self]
  · show 0xffffffff ^^^ (0xffffffff ^^^ a) = a
    rw [← Nat.xor_assoc, Nat.xor_self, Nat.zero_xor]

/-- C7 witness: the lattice laws at A = `Avx2 | Popcnt`, B = `Sse3`. -/
theorem features_lattice_algebra_witness :
    featuresGe (featuresOr (avx2 ||| popcnt) sse3) (avx2 ||| popcnt) ∧
    featuresGe (featuresOr (avx2 ||| popcnt) sse3) sse3 ∧
    featuresLe (featuresAnd (avx2 ||| popcnt) sse3) (avx2 ||| popcnt) ∧
    featuresLe (featuresAnd (avx2 ||| popcnt) sse3) sse3 ∧
    featuresCompl (featuresCompl (avx2 ||| popcnt)) = avx2 ||| popcnt ∧
    featuresOr (avx2 ||| popcnt) (avx2 ||| popcnt) = avx2 ||| popcnt ∧
    featuresAnd (avx2 ||| popcnt) (avx2 ||| popcnt) = avx2 ||| popcnt :=
  features_lattice_algebra (avx2 ||| popcnt) sse3 (by decide) (by decide)

/-- C8: on every build configuration without a hardware probing path — x86
with a compiler other than MSVC/GCC-compatible, ARM without
getauxval/sysctlbyname, WebAssembly, and any other platform —
`runtimeFeatures()` is the pure constant function returning exactly
`compiledFeatures()`. -/
theorem runtimeFeatures_noProbe_eq_compiled :
    (∀ tSse2 tSse3 tSsse3 tSse41 tSse42 tPopcnt tLzcnt tAvx tAvxFma tAvxF16c
        tAvx2 : Bool,
      runtimeFeaturesNoProbeX86 tSse2 tSse3 tSsse3 tSse41 tSse42 tPopcnt
          tLzcnt tAvx tAvxFma tAvxF16c tAvx2 =
        compiledFeaturesX86 tSse2 tSse3 tSsse3 tSse41 tSse42 tPopcnt tLzcnt
          tAvx tAvxFma tAvxF16c tAvx2) ∧
    (∀ tNeon tNeonFma tNeonFp16 : Bool,
      runtimeFeaturesNoProbeArm tNeon tNeonFma tNeonFp16 =
        compiledFeaturesArm tNeon tNeonFma tNeonFp16) ∧
    (∀ tSimd128 : Bool,
      runtimeFeaturesNoProbeWasm tSimd128 = compiledFeaturesWasm tSimd128) ∧
    runtimeFeaturesNoProbeNone = compiledFeaturesNone :=
  ⟨fun _ _ _ _ _ _ _ _ _ _ _ => rfl, fun _ _ _ => rfl, fun _ => rfl, rfl⟩

/-- C3: for every observed feature mask, the x86
`CORRADE_CPU_DISPATCHER_BASE` scan selects one of the base-tag variants;
the selected variant's tag is contained in the observed features; when no
base-tag bit is set it selects the Scalar variant; and among all safe
base variants (tag contained in the features) the selected one has
maximal priority. -/
theorem dispatcherBase_correct (f : Nat) :
    dispatcherBase f ∈ baseVariants ∧
    featuresGe f (dispatcherBase f) ∧
    (f &&& (sse2 ||| sse3 ||| ssse3 ||| sse41 ||| sse42 ||| avx ||| avx2 |||
        avx512f) = 0 → dispatcherBase f = scalar) ∧
    (∀ v ∈ baseVariants, featuresGe f v →
      priorityVal extraTagCountX86 v ≤
        priorityVal extraTagCountX86 (dispatcherBase f)) := by
  have hlt : f &&& 255 < 256 := lt_of_le_of_lt Nat.and_le_right (by omega)
  obtain ⟨hmem, hsafe, hscalar, hmax⟩ := dispatcherBase_spec_bounded (f &&& 255) hlt
  rw [dispatcherBase_and_255] at hmem hsafe hscalar hmax
  refine ⟨hmem, and_subset_trans f 255 _ hsafe, ?_, ?_⟩
  · intro h0
    apply hscalar
    rw [Nat.and_assoc]
    rw [show (255 : Nat) &&& 255 = 255 from rfl]
    rw [show (sse2 ||| sse3 ||| ssse3 ||| sse41 ||| sse42 ||| avx ||| avx2 |||
      avx512f : Nat) = 255 from rfl] at h0
    exact h0
  · intro v hv hgv
    apply hmax v hv
    show (f &&& 255) &&& v = v
    have hv255 : 255 &&& v = v := by fin_cases hv <;> decide
    rw [Nat.and_assoc, hv255]
    exact hgv

/-- C3 witness: with `Sse2 | Avx2 | Popcnt` observed, the selected variant
is safe and outranks the safe `Sse2` variant. -/
theorem dispatcherBase_correct_witness :
    featuresGe (sse2 ||| avx2 ||| popcnt) (dispatcherBase (sse2 ||| avx2 ||| popcnt)) ∧
    priorityVal extraTagCountX86 sse2 ≤
      priorityVal extraTagCountX86 (dispatcherBase (sse2 ||| avx2 ||| popcnt)) :=
  ⟨(dispatcherBase_correct (sse2 ||| avx2 ||| popcnt)).2.1,
    (dispatcherBase_correct (sse2 ||| avx2 ||| popcnt)).2.2.2 sse2
      (by decide) (by decide)⟩

/-- C4: with variants registered for `{Scalar}` and `{base | extra}` for any
base tag and any declared extra tag, the `CORRADE_CPU_DISPATCHER`
pipeline binds the Scalar variant when the observed features contain the
base tag alone (the combined variant is not a subset of the observed
set), and binds the combined variant when the observed features are
exactly `base | extra`. -/
theorem dispatcher_combined_scenario (b e : Nat)
    (hb : b ∈ [sse2, sse3, ssse3, sse41, sse42, avx, avx2, avx512f])
    (he : e ∈ [popcnt, lzcnt, avxF16c, avxFma]) :
    dispatcher [scalar, b ||| e] [e] b = some scalar ∧
    dispatcher [scalar, b ||| e] [e] (b ||| e) = some (b ||| e) := by
  fin_cases hb <;> fin_cases he <;> exact ⟨by decide, by decide⟩

/-- C4 witness: the scenario at base `Avx2` and extra `AvxFma`. -/
theorem dispatcher_combined_scenario_witness :
    dispatcher [scalar, avx2 ||| avxFma] [avxFma] avx2 = some scalar ∧
    dispatcher [scalar, avx2 ||| avxFma] [avxFma] (avx2 ||| avxFma) =
      some (avx2 ||| avxFma) :=
  dispatcher_combined_scenario avx2 avxFma (by decide) (by decide)

/-- C9 counterexample: `compiledFeatures()` does not keep the claimed
"0 or 1 base bits" invariant — on a build with both `CORRADE_TARGET_SSE2`
and `CORRADE_TARGET_SSE3` enabled (any SSE3-or-higher x86 build), the
returned mask carries one bit per enabled tier, here two base bits. -/
theorem compiledFeatures_two_base_bits :
    ¬ popCountNat (compiledFeaturesX86 true true false false false false
        false false false false false &&& baseTagMask) ≤ 1 := by
  decide

/-- C9 amended: base tags occupy the contiguous low bit range 0..7 and
extra tags the contiguous range starting at bit 16; every tag constant
has at most one base bit; every combination accepted at a declaration
boundary (a `priority` instantiation whose `static_assert`s pass) has at
most one base bit; and `compiledFeatures()` always stays within the
defined tag bits — but, as the counterexample shows, it may set several
base bits (one per enabled tier) rather than at most one. -/
theorem tag_layout_invariant :
    [sse2, sse3, ssse3, sse41, sse42, avx, avx2, avx512f] =
      (List.range 8).map (fun i => 1 <<< i) ∧
    [popcnt, lzcnt, avxF16c, avxFma] =
      (List.range 4).map (fun i => 1 <<< (extraTagBitOffset + i)) ∧
    (∀ t ∈ scalar :: ([sse2, sse3, ssse3, sse41, sse42, avx, avx2, avx512f] ++
        [popcnt, lzcnt, avxF16c, avxFma]),
      popCountNat (t &&& baseTagMask) ≤ 1) ∧
    (∀ etc v p, priorityChecked etc v = some p →
      popCountNat (v &&& baseTagMask) ≤ 1) ∧
    (∀ tSse2 tSse3 tSsse3 tSse41 tSse42 tPopcnt tLzcnt tAvx tAvxFma tAvxF16c
        tAvx2 : Bool,
      featuresGe (sse2 ||| sse3 ||| ssse3 ||| sse41 ||| sse42 ||| avx |||
          avx2 ||| avx512f ||| popcnt ||| lzcnt ||| avxF16c ||| avxFma)
        (compiledFeaturesX86 tSse2 tSse3 tSsse3 tSse41 tSse42 tPopcnt tLzcnt
          tAvx tAvxFma tAvxF16c tAvx2)) := by
  refine ⟨by decide, by decide, by decide, ?_, ?_⟩
  · intro etc v p h
    unfold priorityChecked at h
    by_cases hc : (v &&& baseTagMask) &&& ((v &&& baseTagMask) - 1) = 0 ∧
        (v &&& extraTagMask) >>> extraTagBitOffset < 1 <<< etc
    · exact popCountNat_le_one_of_and_pred _ hc.1
    · rw [if_neg hc] at h
      cases h
  · intro tSse2 tSse3 tSsse3 tSse41 tSse42 tPopcnt tLzcnt tAvx tAvxFma
      tAvxF16c tAvx2
    have hor : ∀ x y : Nat,
        featuresGe (sse2 ||| sse3 ||| ssse3 ||| sse41 ||| sse42 ||| avx |||
          avx2 ||| avx512f ||| popcnt ||| lzcnt ||| avxF16c ||| avxFma) x →
        featuresGe (sse2 ||| sse3 ||| ssse3 ||| sse41 ||| sse42 ||| avx |||
          avx2 ||| avx512f ||| popcnt ||| lzcnt ||| avxF16c ||| avxFma) y →
        featuresGe (sse2 ||| sse3 ||| ssse3 ||| sse41 ||| sse42 ||| avx |||
          avx2 ||| avx512f ||| popcnt ||| lzcnt ||| avxF16c ||| avxFma)
          (x ||| y) := by
      intro x y hx hy
      show _ &&& (x ||| y) = x ||| y
      rw [Nat.and_comm, and_or_distrib_right_nat, Nat.and_comm x, Nat.and_comm y,
        hx, hy]
    unfold compiledFeaturesX86
    refine hor _ _ (hor _ _ (hor _ _ (hor _ _ (hor _ _ (hor _ _ (hor _ _
      (hor _ _ (hor _ _ (hor _ _ ?_ ?_) ?_) ?_) ?_) ?_) ?_) ?_) ?_) ?_) ?_ <;>
      split <;> decide

/-- C9 amended witness: the boundary acceptance clause applied at the
combination `Avx2 | Popcnt`, whose priority instantiation succeeds. -/
theorem tag_layout_invariant_witness :
    popCountNat ((avx2 ||| popcnt) &&& baseTagMask) ≤ 1 :=
  tag_layout_invariant.2.2.2.1 extraTagCountX86 (avx2 ||| popcnt)
    (priorityVal extraTagCountX86 (avx2 ||| popcnt)) (by decide)

/-- C10: for every 16-bit value, `BitCount<A>::Value` is the number of set
bits of `A`, and `BitIndex<A>::Value` is 0 at 0 and one more than the
floor base-2 logarithm otherwise — in particular, on a single-bit base
tag it returns the bit position plus one, the base rank used by the
priority computation. -/
theorem bitCount_bitIndex_characterisation (a : Nat) (h : a < 65536) :
    bitCount a = popCountNat a ∧
    bitIndex a = (if a = 0 then 0 else Nat.log2 a + 1) ∧
    (∀ i, a = 1 <<< i → bitIndex a = i + 1) :=
  ⟨bitCount_eq_popCountNat a h, bitIndex_eq_log2 a,
    fun i hi => by rw [hi, Nat.one_shiftLeft, bitIndex_two_pow]⟩

/-- C10 witness: the characterisation evaluated at `0xbeef` and at the
single-bit value `Avx2`. -/
theorem bitCount_bitIndex_characterisation_witness :
    bitCount 0xbeef = popCountNat 0xbeef ∧ bitIndex 64 = 6 + 1 :=
  ⟨(bitCount_bitIndex_characterisation 0xbeef (by decide)).1,
    (bitCount_bitIndex_characterisation 64 (by decide)).2.2 6 rfl⟩

end Cpu
end Corrade
